import Mathlib

/-!
Verification development for the engagement-aggregation subsystem of the
Lyrics-Social-Media-Platform repository: the vote ledger (LikeDislike
model), the rating calculator and propagation hooks on the Composition
model, the Song roll-up counter, and the vote/delete route handlers.

Identifiers mirror the JavaScript source. Mongo object ids are modelled
as natural numbers; JavaScript numbers holding ratings are modelled as
exact rationals. Stateful Mongoose operations are modelled as explicit
state-passing functions on a DB record, with the middleware dispatch
rules of Mongoose made explicit: a schema hook runs only when the
executed operation actually fires the middleware channel the hook was
registered on.
-/

namespace LyricsPlatform

/-- Polarity of a vote, the enum of the field named type on the
LikeDislike schema. -/
inductive VoteType where
  | like
  | dislike
deriving DecidableEq, Repr

/-- The string stored in the request body for a polarity. -/
def VoteType.str : VoteType → String
  | .like => "like"
  | .dislike => "dislike"

/-- One document of the LikeDislike collection: the ledger row
(user, composition, type) plus its storage id. -/
structure LikeDislike where
  id : Nat
  user : Nat
  composition : Nat
  type : VoteType
deriving DecidableEq, Repr

/-- One document of the Composition collection, restricted to the fields
the engagement subsystem reads or writes. -/
structure Composition where
  id : Nat
  song : Nat
  composer : Nat
  likes : Nat
  dislikes : Nat
  rating : ℚ
deriving DecidableEq, Repr

/-- One document of the Song collection, restricted to the fields the
engagement subsystem reads or writes. -/
structure Song where
  id : Nat
  addedBy : Nat
  compositionsCount : Nat
deriving DecidableEq, Repr

/-- One document of the User collection, restricted to the roll-up
counter maintained by the composition save hook. -/
structure User where
  id : Nat
  compositionsCount : Nat
deriving DecidableEq, Repr

/-- The database state: the four collections plus the id generator for
new ledger rows. -/
structure DB where
  votes : List LikeDislike
  compositions : List Composition
  songs : List Song
  users : List User
  nextVoteId : Nat
deriving DecidableEq, Repr

/-- The filter document { user, composition } used by the vote route. -/
def votePred (uid cid : Nat) (v : LikeDislike) : Bool :=
  v.user == uid && v.composition == cid

/-- LikeDislike.findOne with filter on user and composition. -/
def findVote (db : DB) (uid cid : Nat) : Option LikeDislike :=
  db.votes.find? (votePred uid cid)

/-- Composition.findById. -/
def findComposition (db : DB) (cid : Nat) : Option Composition :=
  db.compositions.find? (fun c => c.id == cid)

/-- Song.findById. -/
def findSong (db : DB) (sid : Nat) : Option Song :=
  db.songs.find? (fun s => s.id == sid)

/-- User.findById. -/
def findUser (db : DB) (uid : Nat) : Option User :=
  db.users.find? (fun u => u.id == uid)

/-- LikeDislike.countDocuments with filter on composition and type. -/
def countVotes (db : DB) (cid : Nat) (t : VoteType) : Nat :=
  (db.votes.filter (fun v => v.composition == cid && v.type == t)).length

/-- Composition.countDocuments with filter on composer. -/
def countCompositionsByComposer (db : DB) (uid : Nat) : Nat :=
  (db.compositions.filter (fun c => c.composer == uid)).length

/-- Composition.countDocuments with filter on song. -/
def countCompositionsBySong (db : DB) (sid : Nat) : Nat :=
  (db.compositions.filter (fun c => c.song == sid)).length

/-- JavaScript Math.round: round half toward positive infinity. -/
def jsRound (x : ℚ) : ℤ := ⌊x + 1 / 2⌋

/-- compositionSchema.methods.calculateRating, modelled exactly on the
source: when likes + dislikes is 0 it returns 0 WITHOUT writing the
rating field; otherwise it writes the rounded ratio into the rating
field and returns it. The pair is the updated document and the value
returned by the method. -/
def calculateRating (c : Composition) : Composition × ℚ :=
  let total : Nat := c.likes + c.dislikes
  if total = 0 then (c, 0)
  else
    let likeFrac : ℚ := (c.likes : ℚ) / (total : ℚ)
    let r : ℚ := (jsRound (likeFrac * 5 * 10) : ℚ) / 10
    ({ c with rating := r }, r)

/-- Modelled from the spec, section 4.2: round a rational to one decimal
place with round-half-up semantics. -/
def roundHalfUpTenth (x : ℚ) : ℚ := ((⌊x * 10 + 1 / 2⌋ : ℤ) : ℚ) / 10

/-- Modelled from the spec, section 4.2: Rating(likes, dislikes) is 0
when likes + dislikes = 0, and otherwise the like ratio scaled to 5 and
rounded to one decimal place, half up. Used to compare the code path
against the wording of the spec. -/
def specRating (l d : Nat) : ℚ :=
  if l + d = 0 then 0
  else roundHalfUpTenth ((l : ℚ) / ((l : ℚ) + (d : ℚ)) * 5)

/-- Propagation steps observed while an operation runs: the write of the
derived counters onto a composition (steps 1 and 2 of the propagator),
and the roll-up recomputes on the composer and on the owning song
(steps 3 and 4). -/
inductive Event where
  | targetCountersWritten (cid : Nat)
  | userCountRecomputed (uid : Nat)
  | songCountRecomputed (sid : Nat)
deriving DecidableEq, Repr

/-- Replace the composition document with the given id by the given
document (the in-place write performed by composition.save on an
existing document). -/
def writeComposition (db : DB) (c : Composition) : DB :=
  { db with compositions := db.compositions.map (fun x => if x.id == c.id then c else x) }

/-- Replace the user document with the given id (user.save on an
existing document). -/
def writeUser (db : DB) (u : User) : DB :=
  { db with users := db.users.map (fun x => if x.id == u.id then u else x) }

/-- Replace the song document with the given id (song.save on an
existing document). -/
def writeSong (db : DB) (s : Song) : DB :=
  { db with songs := db.songs.map (fun x => if x.id == s.id then s else x) }

/-- songSchema.methods.updateCompositionsCount: recompute the count of
compositions referencing this song and save the song. -/
def updateCompositionsCount (db : DB) (s : Song) : DB × List Event :=
  let s1 := { s with compositionsCount := countCompositionsBySong db s.id }
  (writeSong db s1, [Event.songCountRecomputed s.id])

/-- First block of the composition post save hook: load the composer,
recompute the compositionsCount of the composer via countDocuments, and
save the user. Nothing happens when the user is missing. -/
def userRecomputeStep (db : DB) (uid : Nat) : DB × List Event :=
  match findUser db uid with
  | some u =>
      (writeUser db { u with compositionsCount := countCompositionsByComposer db uid },
       [Event.userCountRecomputed uid])
  | none => (db, [])

/-- Second block of the composition post save hook: load the owning
song and run its updateCompositionsCount method. Nothing happens when
the song is missing. -/
def songRecomputeStep (db : DB) (sid : Nat) : DB × List Event :=
  match findSong db sid with
  | some s => updateCompositionsCount db s
  | none => (db, [])

/-- compositionSchema.post save hook: recompute the compositionsCount of
the composer via countDocuments and save the user, then recompute the
compositionsCount of the owning song via its method. -/
def compositionPostSaveHook (db : DB) (c : Composition) : DB × List Event :=
  let (db1, ev1) := userRecomputeStep db c.composer
  let (db2, ev2) := songRecomputeStep db1 c.song
  (db2, ev1 ++ ev2)

/-- composition.save on an existing document: write the document, then
run the post save hook of the composition schema. -/
def compositionSave (db : DB) (c : Composition) : DB × List Event :=
  let db1 := writeComposition db c
  let (db2, ev) := compositionPostSaveHook db1 c
  (db2, Event.targetCountersWritten c.id :: ev)

/-- updateCompositionCounts from the LikeDislike model file: count the
like and dislike rows for the composition, load the composition, write
both counts, run calculateRating, and save. -/
def updateCompositionCounts (db : DB) (cid : Nat) : DB × List Event :=
  let likes := countVotes db cid VoteType.like
  let dislikes := countVotes db cid VoteType.dislike
  match findComposition db cid with
  | none => (db, [])
  | some c =>
      let c1 := { c with likes := likes, dislikes := dislikes }
      let c2 := (calculateRating c1).1
      compositionSave db c2

/-- Storage-layer failure of the vote ledger. -/
inductive StorageError where
  | duplicateKey
deriving DecidableEq, Repr

/-- Raw insert of a ledger row. The unique index of the LikeDislike
schema on (user, composition) makes the insert fail with a duplicate
key error when a live row for the same pair already exists. -/
def insertVoteRow (db : DB) (uid cid : Nat) (t : VoteType) :
    Except StorageError DB :=
  if (findVote db uid cid).isSome then Except.error StorageError.duplicateKey
  else Except.ok
    { db with
      votes := db.votes ++ [⟨db.nextVoteId, uid, cid, t⟩],
      nextVoteId := db.nextVoteId + 1 }

/-- newVote.save on a fresh LikeDislike document: insert the row (the
unique index may refuse it), then run the post save hook of the
LikeDislike schema, which calls updateCompositionCounts. -/
def voteSaveNew (db : DB) (uid cid : Nat) (t : VoteType) :
    Except StorageError (DB × List Event) :=
  match insertVoteRow db uid cid t with
  | Except.error e => Except.error e
  | Except.ok db1 => Except.ok (updateCompositionCounts db1 cid)

/-- existingVote.save after assigning a new polarity: write the row in
place, then run the post save hook of the LikeDislike schema, which
calls updateCompositionCounts on the composition of the row. -/
def voteSaveUpdate (db : DB) (v : LikeDislike) (t : VoteType) : DB × List Event :=
  let v1 : LikeDislike := { v with type := t }
  let db1 : DB := { db with votes := db.votes.map (fun x => if x.id == v.id then v1 else x) }
  updateCompositionCounts db1 v.composition

/-- LikeDislike.findByIdAndDelete: remove the row with the given id.
Mongoose dispatches findByIdAndDelete to the findOneAndDelete
middleware channel; the LikeDislike schema registers hooks only on the
save, document remove, and query deleteOne channels, so no registered
hook fires and no count propagation runs here. -/
def voteFindByIdAndDelete (db : DB) (vid : Nat) : DB :=
  { db with votes := db.votes.filter (fun x => x.id != vid) }

/-- LikeDislike.deleteMany with a composition filter. Mongoose
dispatches this to the deleteMany middleware channel, on which the
LikeDislike schema registers no hook, so no count propagation runs. -/
def likeDislikeDeleteMany (db : DB) (cid : Nat) : DB :=
  { db with votes := db.votes.filter (fun v => v.composition != cid) }

/-- Composition.findByIdAndDelete: remove the composition document. The
composition schema registers a hook only on the save channel, so the
deletion triggers no propagation. -/
def compositionFindByIdAndDelete (db : DB) (cid : Nat) : DB :=
  { db with compositions := db.compositions.filter (fun c => c.id != cid) }

/-- Composition.deleteMany with a song filter. The composition schema
registers no deleteMany hook, so nothing else changes. -/
def compositionDeleteManyBySong (db : DB) (sid : Nat) : DB :=
  { db with compositions := db.compositions.filter (fun c => c.song != sid) }

/-- Song.findByIdAndDelete: remove the song document; no hooks. -/
def songFindByIdAndDelete (db : DB) (sid : Nat) : DB :=
  { db with songs := db.songs.filter (fun s => s.id != sid) }

/-- A JSON value as it appears in the response bodies of the vote
route; the null constructor exists to distinguish an explicit null from
an absent key. -/
inductive JsonVal where
  | str (s : String)
  | null
deriving DecidableEq, Repr

/-- A JSON object: the ordered key-value pairs passed to res.json. -/
abbrev JsonObj := List (String × JsonVal)

/-- Look a key up in a JSON object; none means the key is absent from
the wire-level object. -/
def jsonGet (o : JsonObj) (k : String) : Option JsonVal :=
  (o.find? (fun kv => kv.1 == k)).map (fun kv => kv.2)

/-- Outcome of the vote route: a 200 with a JSON body, a 400 from
express-validator, a 404, or a 500 from the catch block. -/
inductive VoteOutcome where
  | ok (body : JsonObj)
  | badRequest
  | notFound
  | serverError
deriving DecidableEq, Repr

/-- body type isIn like dislike, the express-validator check that runs
before the handler body touches storage. -/
def parseVoteType (s : String) : Option VoteType :=
  if s = "like" then some VoteType.like
  else if s = "dislike" then some VoteType.dislike
  else none

/-- POST /api/compositions/:id/vote. Validation rejects a polarity
outside like and dislike with a 400 before any storage access; a
missing composition gives a 404; otherwise the handler finds the
existing row for (user, composition) and removes it on equal polarity
(findByIdAndDelete, no hooks), updates it in place on different
polarity (save, hooks run), or inserts a fresh row (save, hooks run). -/
def voteRoute (db : DB) (uid cid : Nat) (rawType : String) :
    DB × List Event × VoteOutcome :=
  match parseVoteType rawType with
  | none => (db, [], VoteOutcome.badRequest)
  | some t =>
    match findComposition db cid with
    | none => (db, [], VoteOutcome.notFound)
    | some composition =>
      match findVote db uid composition.id with
      | some existingVote =>
        if existingVote.type = t then
          (voteFindByIdAndDelete db existingVote.id, [],
           VoteOutcome.ok
             [("message", JsonVal.str "Vote removed"),
              ("action", JsonVal.str "removed")])
        else
          let (db1, ev) := voteSaveUpdate db existingVote t
          (db1, ev,
           VoteOutcome.ok
             [("message", JsonVal.str "Vote updated"),
              ("action", JsonVal.str "updated"),
              ("type", JsonVal.str rawType)])
      | none =>
        match voteSaveNew db uid composition.id t with
        | Except.error _ => (db, [], VoteOutcome.serverError)
        | Except.ok (db1, ev) =>
          (db1, ev,
           VoteOutcome.ok
             [("message", JsonVal.str "Vote added"),
              ("action", JsonVal.str "added"),
              ("type", JsonVal.str rawType)])

/-- Outcome of the two delete routes. -/
inductive DeleteOutcome where
  | ok
  | notFound
  | forbidden
deriving DecidableEq, Repr

/-- DELETE /api/compositions/:id: only the composer may delete; all
LikeDislike rows of the composition are removed with deleteMany, then
the composition is removed with findByIdAndDelete. Neither operation
fires a registered hook, so no counters are recomputed. -/
def deleteCompositionRoute (db : DB) (uid cid : Nat) :
    DB × DeleteOutcome :=
  match findComposition db cid with
  | none => (db, DeleteOutcome.notFound)
  | some composition =>
    if composition.composer ≠ uid then (db, DeleteOutcome.forbidden)
    else
      let db1 := likeDislikeDeleteMany db composition.id
      let db2 := compositionFindByIdAndDelete db1 cid
      (db2, DeleteOutcome.ok)

/-- DELETE /api/songs/:id: only the user who added the song may delete;
all compositions of the song are removed with deleteMany, then the song
is removed with findByIdAndDelete. The LikeDislike collection is never
touched. -/
def deleteSongRoute (db : DB) (uid sid : Nat) : DB × DeleteOutcome :=
  match findSong db sid with
  | none => (db, DeleteOutcome.notFound)
  | some song =>
    if song.addedBy ≠ uid then (db, DeleteOutcome.forbidden)
    else
      let db1 := compositionDeleteManyBySong db song.id
      let db2 := songFindByIdAndDelete db1 sid
      (db2, DeleteOutcome.ok)

/-! Well-formedness of the database and the consistency invariant of
the denormalized counters. -/

/-- The storage ids of ledger rows are pairwise distinct. -/
def uniqueVoteIds (db : DB) : Prop :=
  (db.votes.map LikeDislike.id).Nodup

/-- The core uniqueness constraint of the ledger: at most one live row
per (user, composition) pair, the guarantee of the unique index. -/
def atMostOneVotePerPair (db : DB) : Prop :=
  db.votes.Pairwise (fun a b => ¬(a.user = b.user ∧ a.composition = b.composition))

/-- Every stored ledger row has an id below the id generator. -/
def voteIdsFresh (db : DB) : Prop :=
  ∀ v ∈ db.votes, v.id < db.nextVoteId

/-- Well-formed database state. -/
structure WF (db : DB) : Prop where
  ids : uniqueVoteIds db
  pairs : atMostOneVotePerPair db
  fresh : voteIdsFresh db

/-- The invariant of section 3 of the spec: the stored likes and
dislikes of every composition equal the ledger counts of each polarity,
and the stored rating equals Rating of those counts. -/
def countersConsistent (db : DB) : Prop :=
  ∀ c ∈ db.compositions,
    c.likes = countVotes db c.id VoteType.like ∧
    c.dislikes = countVotes db c.id VoteType.dislike ∧
    c.rating = specRating (countVotes db c.id VoteType.like)
        (countVotes db c.id VoteType.dislike)

/-! Example database states used by the concrete evaluations. -/

/-- One composer (user 1), one voter (user 2), one song, one
composition carrying one like with consistent counters. -/
def exdb : DB :=
  { votes := [⟨0, 2, 1, VoteType.like⟩],
    compositions := [⟨1, 1, 1, 1, 0, 5⟩],
    songs := [⟨1, 1, 1⟩],
    users := [⟨1, 1⟩, ⟨2, 0⟩],
    nextVoteId := 1 }

/-- Same population as exdb but with an empty ledger and zeroed
counters. -/
def exdbNoVote : DB :=
  { votes := [],
    compositions := [⟨1, 1, 1, 0, 0, 0⟩],
    songs := [⟨1, 1, 1⟩],
    users := [⟨1, 1⟩, ⟨2, 0⟩],
    nextVoteId := 1 }

/-! Frame lemmas: which collections each operation leaves untouched. -/

theorem writeComposition_frame (db : DB) (c : Composition) :
    (writeComposition db c).votes = db.votes ∧
    (writeComposition db c).nextVoteId = db.nextVoteId ∧
    (writeComposition db c).songs = db.songs ∧
    (writeComposition db c).users = db.users :=
  ⟨rfl, rfl, rfl, rfl⟩

theorem userRecomputeStep_frame (db : DB) (uid : Nat) :
    (userRecomputeStep db uid).1.votes = db.votes ∧
    (userRecomputeStep db uid).1.nextVoteId = db.nextVoteId ∧
    (userRecomputeStep db uid).1.compositions = db.compositions ∧
    (userRecomputeStep db uid).1.songs = db.songs := by
  unfold userRecomputeStep
  cases findUser db uid <;> exact ⟨rfl, rfl, rfl, rfl⟩

theorem songRecomputeStep_frame (db : DB) (sid : Nat) :
    (songRecomputeStep db sid).1.votes = db.votes ∧
    (songRecomputeStep db sid).1.nextVoteId = db.nextVoteId ∧
    (songRecomputeStep db sid).1.compositions = db.compositions ∧
    (songRecomputeStep db sid).1.users = db.users := by
  unfold songRecomputeStep updateCompositionsCount writeSong
  cases findSong db sid <;> exact ⟨rfl, rfl, rfl, rfl⟩

theorem compositionPostSaveHook_frame (db : DB) (c : Composition) :
    (compositionPostSaveHook db c).1.votes = db.votes ∧
    (compositionPostSaveHook db c).1.nextVoteId = db.nextVoteId ∧
    (compositionPostSaveHook db c).1.compositions = db.compositions := by
  unfold compositionPostSaveHook
  have h1 := userRecomputeStep_frame db c.composer
  have h2 := songRecomputeStep_frame (userRecomputeStep db c.composer).1 c.song
  exact ⟨h2.1.trans h1.1, h2.2.1.trans h1.2.1, h2.2.2.1.trans h1.2.2.1⟩

theorem compositionSave_frame (db : DB) (c : Composition) :
    (compositionSave db c).1.votes = db.votes ∧
    (compositionSave db c).1.nextVoteId = db.nextVoteId := by
  unfold compositionSave
  have h1 := compositionPostSaveHook_frame (writeComposition db c) c
  exact ⟨h1.1, h1.2.1⟩

theorem updateCompositionCounts_frame (db : DB) (cid : Nat) :
    (updateCompositionCounts db cid).1.votes = db.votes ∧
    (updateCompositionCounts db cid).1.nextVoteId = db.nextVoteId := by
  unfold updateCompositionCounts
  cases findComposition db cid
  · exact ⟨rfl, rfl⟩
  · exact compositionSave_frame db _

/-! Basic facts about the lookup helpers. -/

theorem findComposition_id (db : DB) (cid : Nat) (c : Composition)
    (h : findComposition db cid = some c) : c.id = cid := by
  have hp := List.find?_some h
  simpa using hp

theorem findVote_mem (db : DB) (uid cid : Nat) (v : LikeDislike)
    (h : findVote db uid cid = some v) : v ∈ db.votes :=
  List.mem_of_find?_eq_some h

theorem findVote_key (db : DB) (uid cid : Nat) (v : LikeDislike)
    (h : findVote db uid cid = some v) : v.user = uid ∧ v.composition = cid := by
  have hp := List.find?_some h
  unfold votePred at hp
  simp only [Bool.and_eq_true, beq_iff_eq] at hp
  exact hp

theorem findVote_none_iff (db : DB) (uid cid : Nat) :
    findVote db uid cid = none ↔
      ∀ v ∈ db.votes, ¬(v.user = uid ∧ v.composition = cid) := by
  unfold findVote votePred
  rw [List.find?_eq_none]
  constructor
  · intro h v hv hk
    exact h v hv (by simp [hk.1, hk.2])
  · intro h v hv hp
    exact h v hv (by simpa [Bool.and_eq_true, beq_iff_eq] using hp)

/-- The uniqueness constraint makes the row found for a pair the only
row carrying that pair. -/
theorem votePair_unique (db : DB) (uid cid : Nat) (e x : LikeDislike)
    (hpairs : atMostOneVotePerPair db) (he : findVote db uid cid = some e)
    (hx : x ∈ db.votes) (hpx : votePred uid cid x = true) : x = e := by
  by_contra hne
  have hsym : Symmetric (fun a b : LikeDislike =>
      ¬(a.user = b.user ∧ a.composition = b.composition)) := by
    intro a b hab hba
    exact hab ⟨hba.1.symm, hba.2.symm⟩
  have hR := (List.Pairwise.forall hsym hpairs) hx (findVote_mem db uid cid e he) hne
  have hkx : x.user = uid ∧ x.composition = cid := by
    simpa [votePred, Bool.and_eq_true, beq_iff_eq] using hpx
  have hke := findVote_key db uid cid e he
  exact hR ⟨hkx.1.trans hke.1.symm, hkx.2.trans hke.2.symm⟩

/-! Effect of the three ledger mutations on findVote, and preservation
of well-formedness. -/

theorem findVote_after_delete (db : DB) (uid cid : Nat) (e : LikeDislike)
    (hpairs : atMostOneVotePerPair db) (hv : findVote db uid cid = some e) :
    findVote (voteFindByIdAndDelete db e.id) uid cid = none := by
  unfold voteFindByIdAndDelete findVote
  rw [List.find?_filter, List.find?_eq_none]
  intro x hx hcomb
  simp only [Bool.and_eq_true, decide_eq_true_eq] at hcomb
  have hxid : x.id ≠ e.id := by simpa using hcomb.1
  exact hxid (congrArg LikeDislike.id
    (votePair_unique db uid cid e x hpairs hv hx hcomb.2))

theorem WF_congr (db db' : DB) (hv : db'.votes = db.votes)
    (hn : db'.nextVoteId = db.nextVoteId) (h : WF db) : WF db' := by
  refine ⟨?_, ?_, ?_⟩
  · unfold uniqueVoteIds; rw [hv]; exact h.ids
  · unfold atMostOneVotePerPair; rw [hv]; exact h.pairs
  · unfold voteIdsFresh; rw [hv, hn]; exact h.fresh

theorem WF_delete (db : DB) (vid : Nat) (h : WF db) :
    WF (voteFindByIdAndDelete db vid) := by
  refine ⟨?_, ?_, ?_⟩
  · exact ((List.filter_sublist _).map _).nodup h.ids
  · exact h.pairs.sublist (List.filter_sublist _)
  · intro v hv
    exact h.fresh v (List.mem_of_mem_filter hv)

theorem insertVoteRow_ok (db : DB) (uid cid : Nat) (t : VoteType)
    (hv : findVote db uid cid = none) :
    insertVoteRow db uid cid t = Except.ok
      { db with votes := db.votes ++ [⟨db.nextVoteId, uid, cid, t⟩],
                nextVoteId := db.nextVoteId + 1 } := by
  unfold insertVoteRow
  rw [hv]
  rfl

theorem insertVoteRow_dup (db : DB) (uid cid : Nat) (t : VoteType)
    (hv : (findVote db uid cid).isSome) :
    insertVoteRow db uid cid t = Except.error StorageError.duplicateKey := by
  unfold insertVoteRow
  rw [hv]
  rfl

theorem findVote_after_insert (db : DB) (uid cid : Nat) (t : VoteType)
    (hv : findVote db uid cid = none) :
    findVote { db with votes := db.votes ++ [⟨db.nextVoteId, uid, cid, t⟩],
                       nextVoteId := db.nextVoteId + 1 } uid cid
      = some ⟨db.nextVoteId, uid, cid, t⟩ := by
  unfold findVote at *
  simp only [List.find?_append, hv, Option.none_or]
  simp [votePred]

theorem WF_insert (db : DB) (uid cid : Nat) (t : VoteType) (h : WF db)
    (hv : findVote db uid cid = none) :
    WF { db with votes := db.votes ++ [⟨db.nextVoteId, uid, cid, t⟩],
                 nextVoteId := db.nextVoteId + 1 } := by
  have hnone := (findVote_none_iff db uid cid).mp hv
  refine ⟨?_, ?_, ?_⟩
  · unfold uniqueVoteIds
    simp only [List.map_append, List.map_cons, List.map_nil]
    rw [List.nodup_append]
    refine ⟨h.ids, List.nodup_singleton _, ?_⟩
    intro a ha hb
    simp only [List.mem_singleton] at hb
    subst hb
    obtain ⟨w, hw, hwid⟩ := List.mem_map.mp ha
    exact absurd hwid (Nat.ne_of_lt (h.fresh w hw))
  · unfold atMostOneVotePerPair
    rw [List.pairwise_append]
    refine ⟨h.pairs, List.pairwise_singleton _ _, ?_⟩
    intro a ha b hb
    simp only [List.mem_singleton] at hb
    subst hb
    exact hnone a ha
  · intro v hv'
    rcases List.mem_append.mp hv' with hmem | hmem
    · exact Nat.lt_succ_of_lt (h.fresh v hmem)
    · simp only [List.mem_singleton] at hmem
      subst hmem
      exact Nat.lt_succ_self _

/-- Under distinct ids, the in-place write keyed by the id of a member
row is the same as replacing that row itself. -/
theorem voteUpdate_map_eq (l : List LikeDislike) (e v1 : LikeDislike)
    (hids : (l.map LikeDislike.id).Nodup) (he : e ∈ l) (hv : v1.id = e.id) :
    l.map (fun x => if x.id == e.id then v1 else x)
      = l.map (fun x => if x = e then v1 else x) := by
  refine List.map_congr_left (fun x hx => ?_)
  by_cases hxe : x = e
  · subst hxe
    simp
  · have hne : x.id ≠ e.id := fun hid =>
      hxe (List.inj_on_of_nodup_map hids hx he hid)
    simp [hxe, hne]

theorem find?_map_replace (l : List LikeDislike) (p : LikeDislike → Bool)
    (e v1 : LikeDislike) (hfind : l.find? p = some e) (hp : p v1 = true) :
    (l.map (fun x => if x = e then v1 else x)).find? p = some v1 := by
  induction l with
  | nil => simp at hfind
  | cons a l ih =>
    by_cases hpa : p a
    · rw [List.find?_cons_of_pos _ hpa] at hfind
      have hae : a = e := by injection hfind
      subst hae
      simp only [List.map_cons, if_pos rfl]
      exact List.find?_cons_of_pos _ hp
    · rw [List.find?_cons_of_neg _ hpa] at hfind
      have hae : a ≠ e := fun h => hpa (h ▸ List.find?_some hfind)
      simp only [List.map_cons, if_neg hae]
      rw [List.find?_cons_of_neg _ hpa]
      exact ih hfind

theorem findVote_after_update (db : DB) (uid cid : Nat) (e : LikeDislike)
    (t : VoteType) (hwf : WF db) (hv : findVote db uid cid = some e) :
    findVote { db with
        votes := db.votes.map
          (fun x => if x.id == e.id then { e with type := t } else x) }
      uid cid = some { e with type := t } := by
  unfold findVote at *
  dsimp only
  rw [voteUpdate_map_eq db.votes e { e with type := t } hwf.ids
    (List.mem_of_find?_eq_some hv) rfl]
  refine find?_map_replace db.votes _ e _ hv ?_
  have hp := List.find?_some hv
  simpa [votePred] using hp

theorem WF_update (db : DB) (e : LikeDislike) (t : VoteType) (hwf : WF db)
    (he : e ∈ db.votes) :
    WF { db with
        votes := db.votes.map
          (fun x => if x.id == e.id then { e with type := t } else x) } := by
  rw [voteUpdate_map_eq db.votes e { e with type := t } hwf.ids he rfl]
  have hid : ∀ x : LikeDislike,
      ((if x = e then { e with type := t } else x) : LikeDislike).id = x.id := by
    intro x
    by_cases hxe : x = e
    · subst hxe; simp
    · simp [hxe]
  refine ⟨?_, ?_, ?_⟩
  · unfold uniqueVoteIds
    dsimp only
    rw [List.map_map]
    have : (LikeDislike.id ∘ fun x => if x = e then { e with type := t } else x)
        = LikeDislike.id := funext fun x => hid x
    rw [this]
    exact hwf.ids
  · unfold atMostOneVotePerPair
    dsimp only
    rw [List.pairwise_map]
    refine hwf.pairs.imp ?_
    intro a b hab hcontra
    apply hab
    have hu : ∀ x : LikeDislike,
        ((if x = e then { e with type := t } else x) : LikeDislike).user = x.user := by
      intro x
      by_cases hxe : x = e
      · subst hxe; simp
      · simp [hxe]
    have hc : ∀ x : LikeDislike,
        ((if x = e then { e with type := t } else x) : LikeDislike).composition
          = x.composition := by
      intro x
      by_cases hxe : x = e
      · subst hxe; simp
      · simp [hxe]
    rw [hu a, hu b, hc a, hc b] at hcontra
    exact hcontra
  · intro v hvmem
    obtain ⟨x, hx, hfx⟩ := List.mem_map.mp hvmem
    have : v.id = x.id := by rw [← hfx]; exact hid x
    rw [this]
    exact hwf.fresh x hx

/-! Branch equations of the vote route. -/

theorem parseVoteType_str (t : VoteType) : parseVoteType t.str = some t := by
  cases t <;> rfl

theorem parseVoteType_eq_some (raw : String) (t : VoteType)
    (h : parseVoteType raw = some t) : raw = t.str := by
  unfold parseVoteType at h
  by_cases h1 : raw = "like"
  · rw [if_pos h1] at h
    cases t
    · exact h1
    · exact absurd (Option.some_injective _ h) (by intro hcon; cases hcon)
  · rw [if_neg h1] at h
    by_cases h2 : raw = "dislike"
    · rw [if_pos h2] at h
      cases t
      · exact absurd (Option.some_injective _ h) (by intro hcon; cases hcon)
      · exact h2
    · rw [if_neg h2] at h
      cases h

theorem voteRoute_eq_badRequest (db : DB) (uid cid : Nat) (raw : String)
    (h : parseVoteType raw = none) :
    voteRoute db uid cid raw = (db, [], VoteOutcome.badRequest) := by
  unfold voteRoute
  rw [h]

theorem voteRoute_eq_notFound (db : DB) (uid cid : Nat) (raw : String)
    (t : VoteType) (hraw : parseVoteType raw = some t)
    (hc : findComposition db cid = none) :
    voteRoute db uid cid raw = (db, [], VoteOutcome.notFound) := by
  unfold voteRoute
  rw [hraw, hc]

theorem voteRoute_eq_removed (db : DB) (uid cid : Nat) (raw : String)
    (t : VoteType) (c : Composition) (e : LikeDislike)
    (hraw : parseVoteType raw = some t) (hc : findComposition db cid = some c)
    (hv : findVote db uid c.id = some e) (ht : e.type = t) :
    voteRoute db uid cid raw =
      (voteFindByIdAndDelete db e.id, [],
       VoteOutcome.ok
         [("message", JsonVal.str "Vote removed"),
          ("action", JsonVal.str "removed")]) := by
  unfold voteRoute
  rw [hraw]
  dsimp only
  rw [hc]
  dsimp only
  rw [hv]
  dsimp only
  rw [if_pos ht]

theorem voteRoute_eq_updated (db : DB) (uid cid : Nat) (raw : String)
    (t : VoteType) (c : Composition) (e : LikeDislike)
    (hraw : parseVoteType raw = some t) (hc : findComposition db cid = some c)
    (hv : findVote db uid c.id = some e) (ht : e.type ≠ t) :
    voteRoute db uid cid raw =
      ((voteSaveUpdate db e t).1, (voteSaveUpdate db e t).2,
       VoteOutcome.ok
         [("message", JsonVal.str "Vote updated"),
          ("action", JsonVal.str "updated"),
          ("type", JsonVal.str raw)]) := by
  unfold voteRoute
  rw [hraw]
  dsimp only
  rw [hc]
  dsimp only
  rw [hv]
  dsimp only
  rw [if_neg ht]

theorem voteSaveNew_ok (db : DB) (uid cid : Nat) (t : VoteType)
    (hv : findVote db uid cid = none) :
    voteSaveNew db uid cid t = Except.ok
      (updateCompositionCounts
        { db with votes := db.votes ++ [⟨db.nextVoteId, uid, cid, t⟩],
                  nextVoteId := db.nextVoteId + 1 } cid) := by
  unfold voteSaveNew
  rw [insertVoteRow_ok db uid cid t hv]

theorem voteRoute_eq_added (db : DB) (uid cid : Nat) (raw : String)
    (t : VoteType) (c : Composition)
    (hraw : parseVoteType raw = some t) (hc : findComposition db cid = some c)
    (hv : findVote db uid c.id = none) :
    voteRoute db uid cid raw =
      ((updateCompositionCounts
          { db with votes := db.votes ++ [⟨db.nextVoteId, uid, c.id, t⟩],
                    nextVoteId := db.nextVoteId + 1 } c.id).1,
       (updateCompositionCounts
          { db with votes := db.votes ++ [⟨db.nextVoteId, uid, c.id, t⟩],
                    nextVoteId := db.nextVoteId + 1 } c.id).2,
       VoteOutcome.ok
         [("message", JsonVal.str "Vote added"),
          ("action", JsonVal.str "added"),
          ("type", JsonVal.str raw)]) := by
  unfold voteRoute
  rw [hraw]
  dsimp only
  rw [hc]
  dsimp only
  rw [hv, voteSaveNew_ok db uid c.id t hv]

/-! Preservation of composition ids and of well-formedness through the
vote route. -/

theorem writeComposition_ids (db : DB) (c : Composition) :
    (writeComposition db c).compositions.map Composition.id
      = db.compositions.map Composition.id := by
  unfold writeComposition
  dsimp only
  rw [List.map_map]
  refine List.map_congr_left (fun x _ => ?_)
  by_cases h : x.id = c.id
  · simp [Function.comp, h]
  · simp [Function.comp, h]

theorem updateCompositionCounts_ids (db : DB) (cid : Nat) :
    (updateCompositionCounts db cid).1.compositions.map Composition.id
      = db.compositions.map Composition.id := by
  unfold updateCompositionCounts compositionSave
  cases findComposition db cid
  · rfl
  · dsimp only
    rw [(compositionPostSaveHook_frame _ _).2.2]
    exact writeComposition_ids db _

theorem findComposition_isSome_iff (db : DB) (cid : Nat) :
    (findComposition db cid).isSome ↔
      cid ∈ db.compositions.map Composition.id := by
  unfold findComposition
  simp only [List.find?_isSome, List.mem_map, beq_iff_eq]

theorem WF_voteRoute (db : DB) (uid cid : Nat) (raw : String) (hwf : WF db) :
    WF (voteRoute db uid cid raw).1 := by
  cases hraw : parseVoteType raw with
  | none =>
      rw [voteRoute_eq_badRequest db uid cid raw hraw]
      exact hwf
  | some t =>
    cases hc : findComposition db cid with
    | none =>
        rw [voteRoute_eq_notFound db uid cid raw t hraw hc]
        exact hwf
    | some c =>
      cases hv : findVote db uid c.id with
      | none =>
          rw [voteRoute_eq_added db uid cid raw t c hraw hc hv]
          exact WF_congr _ _ (updateCompositionCounts_frame _ _).1
            (updateCompositionCounts_frame _ _).2
            (WF_insert db uid c.id t hwf hv)
      | some e =>
          by_cases ht : e.type = t
          · rw [voteRoute_eq_removed db uid cid raw t c e hraw hc hv ht]
            exact WF_delete db e.id hwf
          · rw [voteRoute_eq_updated db uid cid raw t c e hraw hc hv ht]
            unfold voteSaveUpdate
            exact WF_congr _ _ (updateCompositionCounts_frame _ _).1
              (updateCompositionCounts_frame _ _).2
              (WF_update db e t hwf (findVote_mem db uid c.id e hv))

/-! Properties of the rating calculator. -/

theorem specRating_zero_right (x : Nat) : specRating 0 x = 0 := by
  unfold specRating roundHalfUpTenth
  by_cases hx : 0 + x = 0
  · rw [if_pos hx]
  · rw [if_neg hx]
    norm_num

theorem specRating_nonneg (l d : Nat) : 0 ≤ specRating l d := by
  unfold specRating roundHalfUpTenth
  by_cases h : l + d = 0
  · rw [if_pos h]
  · rw [if_neg h]
    apply div_nonneg _ (by norm_num)
    have hden : (0 : ℚ) < (l : ℚ) + (d : ℚ) := by
      have hpos : 0 < l + d := Nat.pos_of_ne_zero h
      have : (0 : ℚ) < ((l + d : Nat) : ℚ) := by exact_mod_cast hpos
      push_cast at this
      exact this
    have harg : (0 : ℚ) ≤ (l : ℚ) / ((l : ℚ) + (d : ℚ)) * 5 * 10 + 1 / 2 := by
      have h0 : (0 : ℚ) ≤ (l : ℚ) / ((l : ℚ) + (d : ℚ)) :=
        div_nonneg (Nat.cast_nonneg l) (le_of_lt hden)
      nlinarith
    exact_mod_cast Int.floor_nonneg.mpr harg

theorem specRating_le_five (l d : Nat) : specRating l d ≤ 5 := by
  unfold specRating roundHalfUpTenth
  by_cases h : l + d = 0
  · rw [if_pos h]; norm_num
  · rw [if_neg h]
    rw [div_le_iff₀ (by norm_num : (0 : ℚ) < 10)]
    have hden : (0 : ℚ) < (l : ℚ) + (d : ℚ) := by
      have hpos : 0 < l + d := Nat.pos_of_ne_zero h
      have : (0 : ℚ) < ((l + d : Nat) : ℚ) := by exact_mod_cast hpos
      push_cast at this
      exact this
    have hfrac : (l : ℚ) / ((l : ℚ) + (d : ℚ)) ≤ 1 := by
      rw [div_le_one hden]
      have : (l : ℚ) ≤ (l : ℚ) + (d : ℚ) := by
        have := Nat.cast_nonneg (α := ℚ) d
        linarith
      exact this
    have harg : (l : ℚ) / ((l : ℚ) + (d : ℚ)) * 5 * 10 + 1 / 2 ≤ 101 / 2 := by
      nlinarith
    have hfl : ⌊(l : ℚ) / ((l : ℚ) + (d : ℚ)) * 5 * 10 + 1 / 2⌋ ≤ (50 : ℤ) := by
      have h1 := Int.floor_le_floor harg
      have h2 : ⌊(101 / 2 : ℚ)⌋ = (50 : ℤ) := by norm_num
      rw [h2] at h1
      exact h1
    calc ((⌊(l : ℚ) / ((l : ℚ) + (d : ℚ)) * 5 * 10 + 1 / 2⌋ : ℤ) : ℚ)
        ≤ ((50 : ℤ) : ℚ) := by exact_mod_cast hfl
    _ = 5 * 10 := by norm_num

theorem specRating_mono_of_ratio_le (l d l' d' : Nat) (h1 : l + d ≠ 0)
    (h2 : l' + d' ≠ 0)
    (hfrac : (l : ℚ) / ((l : ℚ) + (d : ℚ)) ≤ (l' : ℚ) / ((l' : ℚ) + (d' : ℚ))) :
    specRating l d ≤ specRating l' d' := by
  unfold specRating roundHalfUpTenth
  rw [if_neg h1, if_neg h2]
  apply div_le_div_of_nonneg_right ?_ (by norm_num)
  have : ⌊(l : ℚ) / ((l : ℚ) + (d : ℚ)) * 5 * 10 + 1 / 2⌋
      ≤ ⌊(l' : ℚ) / ((l' : ℚ) + (d' : ℚ)) * 5 * 10 + 1 / 2⌋ := by
    apply Int.floor_le_floor
    nlinarith
  exact_mod_cast this

theorem castDenPos (l d : Nat) (h : l + d ≠ 0) : (0 : ℚ) < (l : ℚ) + (d : ℚ) := by
  have hpos : 0 < l + d := Nat.pos_of_ne_zero h
  have : (0 : ℚ) < ((l + d : Nat) : ℚ) := by exact_mod_cast hpos
  push_cast at this
  exact this

theorem ratio_mono_likes (l l' d : Nat) (hl : l ≤ l') (h1 : l + d ≠ 0) :
    (l : ℚ) / ((l : ℚ) + (d : ℚ)) ≤ (l' : ℚ) / ((l' : ℚ) + (d : ℚ)) := by
  have hd1 := castDenPos l d h1
  have hlq : (l : ℚ) ≤ (l' : ℚ) := by exact_mod_cast hl
  have hd2 : (0 : ℚ) < (l' : ℚ) + (d : ℚ) := by linarith
  rw [div_le_div_iff₀ hd1 hd2]
  have hdq : (0 : ℚ) ≤ (d : ℚ) := Nat.cast_nonneg d
  nlinarith

theorem ratio_anti_dislikes (l d d' : Nat) (hd : d ≤ d') (h1 : l + d ≠ 0) :
    (l : ℚ) / ((l : ℚ) + (d' : ℚ)) ≤ (l : ℚ) / ((l : ℚ) + (d : ℚ)) := by
  have hd1 := castDenPos l d h1
  have hdq : (d : ℚ) ≤ (d' : ℚ) := by exact_mod_cast hd
  have hd2 : (0 : ℚ) < (l : ℚ) + (d' : ℚ) := by linarith
  rw [div_le_div_iff₀ hd2 hd1]
  have hlq : (0 : ℚ) ≤ (l : ℚ) := Nat.cast_nonneg l
  nlinarith

/-- C5: the rating calculator returns 0 when likes + dislikes is 0 and
otherwise the like ratio scaled to 5, rounded to one decimal place with
round-half-up semantics; the returned value is a pure function of the
likes and dislikes fields alone, here witnessed by its equality with
specRating applied to those two fields. -/
theorem calculateRating_matches_spec (c : Composition) :
    (calculateRating c).2 = specRating c.likes c.dislikes := by
  unfold calculateRating specRating roundHalfUpTenth jsRound
  by_cases h : c.likes + c.dislikes = 0
  · rw [if_pos h]
    dsimp only
    rw [if_pos h]
  · rw [if_neg h]
    dsimp only
    rw [if_neg h]
    have hcast : ((c.likes + c.dislikes : Nat) : ℚ)
        = (c.likes : ℚ) + (c.dislikes : ℚ) := by push_cast; ring
    rw [hcast]

/-- C6: the rating is monotonically non-decreasing in the likes for
fixed dislikes, monotonically non-increasing in the dislikes for fixed
likes, and always lies in the closed interval from 0 to 5. -/
theorem rating_monotone_and_bounded (l l' d d' : Nat) (hl : l ≤ l') (hd : d ≤ d') :
    specRating l d ≤ specRating l' d ∧
    specRating l d' ≤ specRating l d ∧
    0 ≤ specRating l d ∧ specRating l d ≤ 5 := by
  refine ⟨?_, ?_, specRating_nonneg l d, specRating_le_five l d⟩
  · by_cases h1 : l + d = 0
    · have hz : specRating l d = 0 := by
        unfold specRating
        rw [if_pos h1]
      rw [hz]
      exact specRating_nonneg l' d
    · have h2 : l' + d ≠ 0 := by omega
      exact specRating_mono_of_ratio_le l d l' d h1 h2 (ratio_mono_likes l l' d hl h1)
  · by_cases h0 : l = 0
    · subst h0
      rw [specRating_zero_right d, specRating_zero_right d']
    · have h1 : l + d ≠ 0 := by omega
      have h2 : l + d' ≠ 0 := by omega
      exact specRating_mono_of_ratio_le l d' l d h2 h1 (ratio_anti_dislikes l d d' hd h1)

/-- Witness for C6 at likes 1, 2 and dislikes 0, 1. -/
theorem rating_monotone_and_bounded_witness :
    specRating 1 0 ≤ specRating 2 0 ∧
    specRating 1 1 ≤ specRating 1 0 ∧
    0 ≤ specRating 1 0 ∧ specRating 1 0 ≤ 5 :=
  rating_monotone_and_bounded 1 2 0 1 (by decide) (by decide)

/-! More preservation lemmas for the vote route. -/

theorem voteRoute_composition_ids (db : DB) (uid cid : Nat) (raw : String) :
    (voteRoute db uid cid raw).1.compositions.map Composition.id
      = db.compositions.map Composition.id := by
  cases hraw : parseVoteType raw with
  | none => rw [voteRoute_eq_badRequest db uid cid raw hraw]
  | some t =>
    cases hc : findComposition db cid with
    | none => rw [voteRoute_eq_notFound db uid cid raw t hraw hc]
    | some c =>
      cases hv : findVote db uid c.id with
      | none =>
          rw [voteRoute_eq_added db uid cid raw t c hraw hc hv]
          exact updateCompositionCounts_ids _ _
      | some e =>
          by_cases ht : e.type = t
          · rw [voteRoute_eq_removed db uid cid raw t c e hraw hc hv ht]
            rfl
          · rw [voteRoute_eq_updated db uid cid raw t c e hraw hc hv ht]
            unfold voteSaveUpdate
            exact updateCompositionCounts_ids _ _

theorem voteRoute_added_state (db : DB) (uid cid : Nat) (t : VoteType)
    (c : Composition) (hc : findComposition db cid = some c)
    (hv : findVote db uid cid = none) :
    findVote (voteRoute db uid cid t.str).1 uid cid
      = some ⟨db.nextVoteId, uid, cid, t⟩ := by
  have hcid : c.id = cid := findComposition_id db cid c hc
  have hv' : findVote db uid c.id = none := by rw [hcid]; exact hv
  rw [voteRoute_eq_added db uid cid t.str t c (parseVoteType_str t) hc hv']
  dsimp only
  unfold findVote
  rw [(updateCompositionCounts_frame _ _).1]
  have := findVote_after_insert db uid cid t hv
  unfold findVote at this
  dsimp only at this
  rw [hcid]
  exact this

/-- C4: the core uniqueness constraint of the ledger holds after every
vote route call from a well-formed state, and a raw insert of a second
live row for an already-voted (user, composition) pair fails with a
duplicate key error at the storage layer instead of creating a
duplicate. -/
theorem ledger_pair_uniqueness (db : DB) (uid cid : Nat) (raw : String)
    (t : VoteType) (hwf : WF db) :
    atMostOneVotePerPair (voteRoute db uid cid raw).1 ∧
    ((∃ v ∈ db.votes, v.user = uid ∧ v.composition = cid) →
      insertVoteRow db uid cid t = Except.error StorageError.duplicateKey) := by
  refine ⟨(WF_voteRoute db uid cid raw hwf).pairs, ?_⟩
  rintro ⟨v, hv, hk⟩
  apply insertVoteRow_dup
  unfold findVote
  simp only [List.find?_isSome]
  exact ⟨v, hv, by simp [votePred, hk.1, hk.2]⟩

/-- Witness for C4 on the one-vote example state. -/
theorem ledger_pair_uniqueness_witness :
    atMostOneVotePerPair (voteRoute exdb 2 1 "like").1 ∧
    ((∃ v ∈ exdb.votes, v.user = 2 ∧ v.composition = 1) →
      insertVoteRow exdb 2 1 VoteType.like
        = Except.error StorageError.duplicateKey) :=
  ledger_pair_uniqueness exdb 2 1 "like" VoteType.like
    ⟨by unfold uniqueVoteIds exdb; decide,
     by unfold atMostOneVotePerPair exdb; decide,
     by unfold voteIdsFresh exdb; decide⟩

/-- C9: an invalid polarity is rejected with the validation error
before any storage access and a missing target with the not-found
error; in both failure cases the returned database is the input
database unchanged, so no ledger row and no counter changes. -/
theorem vote_failure_cases (db : DB) (uid cid : Nat) (raw : String) :
    (parseVoteType raw = none →
      voteRoute db uid cid raw = (db, [], VoteOutcome.badRequest)) ∧
    (∀ t, parseVoteType raw = some t → findComposition db cid = none →
      voteRoute db uid cid raw = (db, [], VoteOutcome.notFound)) :=
  ⟨fun h => voteRoute_eq_badRequest db uid cid raw h,
   fun t ht hc => voteRoute_eq_notFound db uid cid raw t ht hc⟩

/-- Witness for C9: a misspelled polarity and a missing target id. -/
theorem vote_failure_cases_witness :
    voteRoute exdb 2 1 "loud" = (exdb, [], VoteOutcome.badRequest) ∧
    voteRoute exdb 2 99 "like" = (exdb, [], VoteOutcome.notFound) :=
  ⟨(vote_failure_cases exdb 2 1 "loud").1 rfl,
   (vote_failure_cases exdb 2 99 "like").2 VoteType.like rfl rfl⟩

/-- C3: for a well-formed state and an existing target, the vote
operation is a tri-state toggle: with no existing row a new row of the
submitted polarity is inserted and the action is added; with an
existing row of a different polarity the row is updated in place
(same storage id) and the action is updated; with an existing row of
the same polarity the row is deleted and the action is removed; and
issuing the same polarity twice from the no-vote state yields the
action sequence added then removed and ends with no vote stored. -/
theorem vote_tristate_toggle (db : DB) (uid cid : Nat) (t : VoteType)
    (hwf : WF db) (c : Composition) (hc : findComposition db cid = some c) :
    (findVote db uid cid = none →
      (voteRoute db uid cid t.str).2.2 =
        VoteOutcome.ok
          [("message", JsonVal.str "Vote added"),
           ("action", JsonVal.str "added"),
           ("type", JsonVal.str t.str)] ∧
      findVote (voteRoute db uid cid t.str).1 uid cid
        = some ⟨db.nextVoteId, uid, cid, t⟩) ∧
    (∀ e, findVote db uid cid = some e → e.type ≠ t →
      (voteRoute db uid cid t.str).2.2 =
        VoteOutcome.ok
          [("message", JsonVal.str "Vote updated"),
           ("action", JsonVal.str "updated"),
           ("type", JsonVal.str t.str)] ∧
      findVote (voteRoute db uid cid t.str).1 uid cid
        = some { e with type := t }) ∧
    (∀ e, findVote db uid cid = some e → e.type = t →
      (voteRoute db uid cid t.str).2.2 =
        VoteOutcome.ok
          [("message", JsonVal.str "Vote removed"),
           ("action", JsonVal.str "removed")] ∧
      findVote (voteRoute db uid cid t.str).1 uid cid = none) ∧
    (findVote db uid cid = none →
      (voteRoute (voteRoute db uid cid t.str).1 uid cid t.str).2.2 =
        VoteOutcome.ok
          [("message", JsonVal.str "Vote removed"),
           ("action", JsonVal.str "removed")] ∧
      findVote (voteRoute (voteRoute db uid cid t.str).1 uid cid t.str).1
        uid cid = none) := by
  have hcid : c.id = cid := findComposition_id db cid c hc
  refine ⟨?_, ?_, ?_, ?_⟩
  · intro hnone
    have hv' : findVote db uid c.id = none := by rw [hcid]; exact hnone
    refine ⟨?_, voteRoute_added_state db uid cid t c hc hnone⟩
    rw [voteRoute_eq_added db uid cid t.str t c (parseVoteType_str t) hc hv']
  · intro e he hne
    have hv' : findVote db uid c.id = some e := by rw [hcid]; exact he
    rw [voteRoute_eq_updated db uid cid t.str t c e (parseVoteType_str t) hc hv' hne]
    refine ⟨rfl, ?_⟩
    unfold voteSaveUpdate
    dsimp only
    unfold findVote
    rw [(updateCompositionCounts_frame _ _).1]
    exact findVote_after_update db uid cid e t hwf he
  · intro e he hsame
    have hv' : findVote db uid c.id = some e := by rw [hcid]; exact he
    rw [voteRoute_eq_removed db uid cid t.str t c e (parseVoteType_str t) hc hv' hsame]
    exact ⟨rfl, findVote_after_delete db uid cid e hwf.pairs he⟩
  · intro hnone
    have h1 := voteRoute_added_state db uid cid t c hc hnone
    have hwf1 : WF (voteRoute db uid cid t.str).1 :=
      WF_voteRoute db uid cid t.str hwf
    have hcs : (findComposition (voteRoute db uid cid t.str).1 cid).isSome := by
      rw [findComposition_isSome_iff, voteRoute_composition_ids,
        ← findComposition_isSome_iff, hc]
      rfl
    obtain ⟨c2, hc2⟩ := Option.isSome_iff_exists.mp hcs
    have hc2id : c2.id = cid := findComposition_id _ cid c2 hc2
    have hv2 : findVote (voteRoute db uid cid t.str).1 uid c2.id
        = some ⟨db.nextVoteId, uid, cid, t⟩ := by
      rw [hc2id]; exact h1
    rw [voteRoute_eq_removed (voteRoute db uid cid t.str).1 uid cid t.str t c2
      ⟨db.nextVoteId, uid, cid, t⟩ (parseVoteType_str t) hc2 hv2 rfl]
    exact ⟨rfl, findVote_after_delete (voteRoute db uid cid t.str).1 uid cid
      ⟨db.nextVoteId, uid, cid, t⟩ hwf1.pairs h1⟩

/-- Witness for C3 on the empty-ledger example state. -/
theorem vote_tristate_toggle_witness :
    ((voteRoute exdbNoVote 2 1 "like").2.2 =
        VoteOutcome.ok
          [("message", JsonVal.str "Vote added"),
           ("action", JsonVal.str "added"),
           ("type", JsonVal.str "like")] ∧
      findVote (voteRoute exdbNoVote 2 1 "like").1 2 1
        = some ⟨1, 2, 1, VoteType.like⟩) ∧
    ((voteRoute (voteRoute exdbNoVote 2 1 "like").1 2 1 "like").2.2 =
        VoteOutcome.ok
          [("message", JsonVal.str "Vote removed"),
           ("action", JsonVal.str "removed")] ∧
      findVote (voteRoute (voteRoute exdbNoVote 2 1 "like").1 2 1 "like").1 2 1
        = none) := by
  have h := vote_tristate_toggle exdbNoVote 2 1 VoteType.like
    ⟨by unfold uniqueVoteIds exdbNoVote; decide,
     by unfold atMostOneVotePerPair exdbNoVote; decide,
     by unfold voteIdsFresh exdbNoVote; decide⟩
    ⟨1, 1, 1, 0, 0, 0⟩ rfl
  exact ⟨h.1 rfl, h.2.2.2 rfl⟩

/-! The event traces of the propagation pipeline. -/

theorem findSong_id (db : DB) (sid : Nat) (s : Song)
    (h : findSong db sid = some s) : s.id = sid := by
  have hp := List.find?_some h
  simpa using hp

theorem findUser_congr (db1 db2 : DB) (x : Nat) (h : db1.users = db2.users) :
    findUser db1 x = findUser db2 x := by
  unfold findUser
  rw [h]

theorem findSong_congr (db1 db2 : DB) (x : Nat) (h : db1.songs = db2.songs) :
    findSong db1 x = findSong db2 x := by
  unfold findSong
  rw [h]

theorem findComposition_congr (db1 db2 : DB) (x : Nat)
    (h : db1.compositions = db2.compositions) :
    findComposition db1 x = findComposition db2 x := by
  unfold findComposition
  rw [h]

theorem calculateRating_fields (c : Composition) :
    (calculateRating c).1.id = c.id ∧ (calculateRating c).1.song = c.song ∧
    (calculateRating c).1.composer = c.composer := by
  unfold calculateRating
  by_cases h : c.likes + c.dislikes = 0 <;> simp [h]

theorem userRecomputeStep_events (db : DB) (uid : Nat) (u : User)
    (hu : findUser db uid = some u) :
    (userRecomputeStep db uid).2 = [Event.userCountRecomputed uid] := by
  unfold userRecomputeStep
  rw [hu]

theorem songRecomputeStep_events (db : DB) (sid : Nat) (s : Song)
    (hs : findSong db sid = some s) :
    (songRecomputeStep db sid).2 = [Event.songCountRecomputed sid] := by
  unfold songRecomputeStep updateCompositionsCount
  rw [hs]
  dsimp only
  rw [findSong_id db sid s hs]

theorem compositionSave_events (db : DB) (c : Composition)
    (hu : (findUser db c.composer).isSome) (hs : (findSong db c.song).isSome) :
    (compositionSave db c).2 =
      [Event.targetCountersWritten c.id,
       Event.userCountRecomputed c.composer,
       Event.songCountRecomputed c.song] := by
  unfold compositionSave compositionPostSaveHook
  dsimp only
  obtain ⟨u, hu'⟩ := Option.isSome_iff_exists.mp hu
  have hu1 : findUser (writeComposition db c) c.composer = some u := by
    rw [findUser_congr (writeComposition db c) db c.composer rfl]
    exact hu'
  obtain ⟨s, hs'⟩ := Option.isSome_iff_exists.mp hs
  have hsongs : (userRecomputeStep (writeComposition db c) c.composer).1.songs
      = db.songs :=
    (userRecomputeStep_frame (writeComposition db c) c.composer).2.2.2
  have hs1 : findSong (userRecomputeStep (writeComposition db c) c.composer).1
      c.song = some s := by
    rw [findSong_congr _ db c.song hsongs]
    exact hs'
  rw [userRecomputeStep_events _ _ u hu1, songRecomputeStep_events _ _ s hs1]
  rfl

theorem updateCompositionCounts_events (db : DB) (cid : Nat) (c : Composition)
    (hc : findComposition db cid = some c)
    (hu : (findUser db c.composer).isSome)
    (hs : (findSong db c.song).isSome) :
    (updateCompositionCounts db cid).2 =
      [Event.targetCountersWritten cid,
       Event.userCountRecomputed c.composer,
       Event.songCountRecomputed c.song] := by
  unfold updateCompositionCounts
  rw [hc]
  dsimp only
  have hcid := findComposition_id db cid c hc
  have hf := calculateRating_fields
    { c with likes := countVotes db cid VoteType.like,
             dislikes := countVotes db cid VoteType.dislike }
  rw [compositionSave_events db _ (by rw [hf.2.2]; exact hu)
    (by rw [hf.2.1]; exact hs)]
  rw [hf.1, hf.2.1, hf.2.2]
  dsimp only
  rw [hcid]

/-- C7 amended: on a vote add or change, the propagator writes the
derived counters of the target AND, through the composition save hook,
re-triggers the roll-up recompute of the composer and of the owning
song (overwriting them with unchanged values); on a vote retraction no
propagation at all runs, not even the counter recompute of the target. -/
theorem vote_event_trace (db : DB) (uid cid : Nat) (t : VoteType)
    (c : Composition) (hc : findComposition db cid = some c)
    (hu : (findUser db c.composer).isSome)
    (hs : (findSong db c.song).isSome) :
    (∀ e, findVote db uid cid = some e → e.type = t →
      (voteRoute db uid cid t.str).2.1 = []) ∧
    (findVote db uid cid = none →
      (voteRoute db uid cid t.str).2.1 =
        [Event.targetCountersWritten cid,
         Event.userCountRecomputed c.composer,
         Event.songCountRecomputed c.song]) ∧
    (∀ e, findVote db uid cid = some e → e.type ≠ t →
      (voteRoute db uid cid t.str).2.1 =
        [Event.targetCountersWritten cid,
         Event.userCountRecomputed c.composer,
         Event.songCountRecomputed c.song]) := by
  have hcid : c.id = cid := findComposition_id db cid c hc
  refine ⟨?_, ?_, ?_⟩
  · intro e he hsame
    have hv' : findVote db uid c.id = some e := by rw [hcid]; exact he
    rw [voteRoute_eq_removed db uid cid t.str t c e (parseVoteType_str t) hc hv' hsame]
  · intro hnone
    have hv' : findVote db uid c.id = none := by rw [hcid]; exact hnone
    rw [voteRoute_eq_added db uid cid t.str t c (parseVoteType_str t) hc hv']
    dsimp only
    set dbIns : DB :=
      { db with votes := db.votes ++ [⟨db.nextVoteId, uid, c.id, t⟩],
                nextVoteId := db.nextVoteId + 1 } with hdbIns
    have hcIns : findComposition dbIns c.id = some c := by
      rw [findComposition_congr dbIns db c.id rfl, hcid]
      exact hc
    rw [updateCompositionCounts_events dbIns c.id c hcIns
      (by rw [findUser_congr dbIns db c.composer rfl]; exact hu)
      (by rw [findSong_congr dbIns db c.song rfl]; exact hs)]
    rw [hcid]
  · intro e he hne
    have hv' : findVote db uid c.id = some e := by rw [hcid]; exact he
    rw [voteRoute_eq_updated db uid cid t.str t c e (parseVoteType_str t) hc hv' hne]
    dsimp only
    unfold voteSaveUpdate
    dsimp only
    have hecomp : e.composition = cid := (findVote_key db uid cid e he).2
    rw [updateCompositionCounts_events _ e.composition c
      (by rw [hecomp]; exact hc) (by exact hu) (by exact hs)]
    rw [hecomp]

/-- C7 counterexample: on the empty-ledger example state, a plain vote
add emits the roll-up recompute events for the composer and the owning
song, refuting that only the target counter write runs on a vote
mutation. -/
theorem vote_rollup_triggered_on_vote :
    (voteRoute exdbNoVote 2 1 "like").2.1 =
      [Event.targetCountersWritten 1, Event.userCountRecomputed 1,
       Event.songCountRecomputed 1] ∧
    Event.userCountRecomputed 1 ∈ (voteRoute exdbNoVote 2 1 "like").2.1 ∧
    Event.songCountRecomputed 1 ∈ (voteRoute exdbNoVote 2 1 "like").2.1 := by
  refine ⟨rfl, ?_, ?_⟩ <;> decide

/-- Witness for C7 on the example states: the retraction path emits no
events at all. -/
theorem vote_event_trace_witness :
    (voteRoute exdb 2 1 "like").2.1 = [] ∧
    (voteRoute exdb 2 1 "dislike").2.1 =
      [Event.targetCountersWritten 1, Event.userCountRecomputed 1,
       Event.songCountRecomputed 1] := by
  have h := vote_event_trace exdb 2 1 VoteType.like ⟨1, 1, 1, 1, 0, 5⟩
    rfl (by decide) (by decide)
  have h2 := vote_event_trace exdb 2 1 VoteType.dislike ⟨1, 1, 1, 1, 0, 5⟩
    rfl (by decide) (by decide)
  exact ⟨h.1 ⟨0, 2, 1, VoteType.like⟩ rfl rfl,
    h2.2.2 ⟨0, 2, 1, VoteType.like⟩ rfl (by decide)⟩

/-- C8 amended: every successful vote response carries an action field
equal to added, updated or removed; the type field equals the submitted
polarity when the action is added or updated, and is ABSENT from the
response object (not an explicit null) when the action is removed. -/
theorem vote_response_shape (db : DB) (uid cid : Nat) (raw : String)
    (body : JsonObj)
    (h : (voteRoute db uid cid raw).2.2 = VoteOutcome.ok body) :
    ∃ t : VoteType, parseVoteType raw = some t ∧
      (jsonGet body "action" = some (JsonVal.str "added") ∧
         jsonGet body "type" = some (JsonVal.str t.str) ∨
       jsonGet body "action" = some (JsonVal.str "updated") ∧
         jsonGet body "type" = some (JsonVal.str t.str) ∨
       jsonGet body "action" = some (JsonVal.str "removed") ∧
         jsonGet body "type" = none) := by
  cases hraw : parseVoteType raw with
  | none =>
      rw [voteRoute_eq_badRequest db uid cid raw hraw] at h
      cases h
  | some t =>
    refine ⟨t, rfl, ?_⟩
    have hstr := parseVoteType_eq_some raw t hraw
    subst hstr
    cases hc : findComposition db cid with
    | none =>
        rw [voteRoute_eq_notFound db uid cid t.str t hraw hc] at h
        cases h
    | some c =>
      cases hv : findVote db uid c.id with
      | none =>
          rw [voteRoute_eq_added db uid cid t.str t c hraw hc hv] at h
          simp only [VoteOutcome.ok.injEq] at h
          subst h
          left
          exact ⟨rfl, rfl⟩
      | some e =>
          by_cases ht : e.type = t
          · rw [voteRoute_eq_removed db uid cid t.str t c e hraw hc hv ht] at h
            simp only [VoteOutcome.ok.injEq] at h
            subst h
            right; right
            exact ⟨rfl, rfl⟩
          · rw [voteRoute_eq_updated db uid cid t.str t c e hraw hc hv ht] at h
            simp only [VoteOutcome.ok.injEq] at h
            subst h
            right; left
            exact ⟨rfl, rfl⟩

/-- C8 counterexample: the response of a successful retraction contains
no type key at all, rather than a type key equal to null. -/
theorem removed_response_lacks_type_field :
    (voteRoute exdb 2 1 "like").2.2 =
      VoteOutcome.ok
        [("message", JsonVal.str "Vote removed"),
         ("action", JsonVal.str "removed")] ∧
    jsonGet [("message", JsonVal.str "Vote removed"),
             ("action", JsonVal.str "removed")] "action"
      = some (JsonVal.str "removed") ∧
    jsonGet [("message", JsonVal.str "Vote removed"),
             ("action", JsonVal.str "removed")] "type" = none :=
  ⟨rfl, rfl, rfl⟩

/-- Witness for C8 on the one-vote example state: a vote change. -/
theorem vote_response_shape_witness :
    ∃ t : VoteType, parseVoteType "dislike" = some t ∧
      (jsonGet [("message", JsonVal.str "Vote updated"),
                ("action", JsonVal.str "updated"),
                ("type", JsonVal.str "dislike")] "action"
          = some (JsonVal.str "added") ∧
        jsonGet [("message", JsonVal.str "Vote updated"),
                ("action", JsonVal.str "updated"),
                ("type", JsonVal.str "dislike")] "type"
          = some (JsonVal.str t.str) ∨
       jsonGet [("message", JsonVal.str "Vote updated"),
                ("action", JsonVal.str "updated"),
                ("type", JsonVal.str "dislike")] "action"
          = some (JsonVal.str "updated") ∧
        jsonGet [("message", JsonVal.str "Vote updated"),
                ("action", JsonVal.str "updated"),
                ("type", JsonVal.str "dislike")] "type"
          = some (JsonVal.str t.str) ∨
       jsonGet [("message", JsonVal.str "Vote updated"),
                ("action", JsonVal.str "updated"),
                ("type", JsonVal.str "dislike")] "action"
          = some (JsonVal.str "removed") ∧
        jsonGet [("message", JsonVal.str "Vote updated"),
                ("action", JsonVal.str "updated"),
                ("type", JsonVal.str "dislike")] "type" = none) :=
  vote_response_shape exdb 2 1 "dislike"
    [("message", JsonVal.str "Vote updated"),
     ("action", JsonVal.str "updated"),
     ("type", JsonVal.str "dislike")] rfl

/-! The cascade-delete routes. -/

theorem deleteCompositionRoute_eq (db : DB) (uid cid : Nat) (c : Composition)
    (hc : findComposition db cid = some c) (hauth : c.composer = uid) :
    deleteCompositionRoute db uid cid =
      (compositionFindByIdAndDelete (likeDislikeDeleteMany db c.id) cid,
       DeleteOutcome.ok) := by
  unfold deleteCompositionRoute
  rw [hc]
  dsimp only
  rw [if_neg (fun hne => hne hauth)]

/-- C2 amended: cascade delete by the composer removes every ledger row
referencing the target and then removes the target itself, with the
ledger purge ordered before the target removal; but it does not touch
the songs or users collections, so the compositionsCount of the owning
song and of the composer stay at their previous values instead of
being decremented. -/
theorem cascade_delete_composition (db : DB) (uid cid : Nat) (c : Composition)
    (hc : findComposition db cid = some c) (hauth : c.composer = uid) :
    (deleteCompositionRoute db uid cid).2 = DeleteOutcome.ok ∧
    (deleteCompositionRoute db uid cid).1 =
      compositionFindByIdAndDelete (likeDislikeDeleteMany db c.id) cid ∧
    (∀ v ∈ (deleteCompositionRoute db uid cid).1.votes, v.composition ≠ cid) ∧
    findComposition (deleteCompositionRoute db uid cid).1 cid = none ∧
    (deleteCompositionRoute db uid cid).1.songs = db.songs ∧
    (deleteCompositionRoute db uid cid).1.users = db.users := by
  have hcid := findComposition_id db cid c hc
  rw [deleteCompositionRoute_eq db uid cid c hc hauth]
  refine ⟨rfl, rfl, ?_, ?_, rfl, rfl⟩
  · intro v hv
    have hkeep := List.of_mem_filter hv
    simp only [bne_iff_ne, ne_eq] at hkeep
    rw [← hcid]
    exact hkeep
  · unfold findComposition compositionFindByIdAndDelete
    dsimp only
    rw [List.find?_filter, List.find?_eq_none]
    intro x hx
    simp

/-- C2 counterexample: deleting the only composition of song 1, which
was authored by user 1, leaves the stored compositionsCount of both
song 1 and user 1 at 1 instead of decrementing them to 0. -/
theorem cascade_delete_keeps_rollup_counts :
    (deleteCompositionRoute exdb 1 1).2 = DeleteOutcome.ok ∧
    (deleteCompositionRoute exdb 1 1).1.compositions = [] ∧
    (deleteCompositionRoute exdb 1 1).1.votes = [] ∧
    (deleteCompositionRoute exdb 1 1).1.songs = [⟨1, 1, 1⟩] ∧
    (deleteCompositionRoute exdb 1 1).1.users = [⟨1, 1⟩, ⟨2, 0⟩] :=
  ⟨rfl, rfl, rfl, rfl, rfl⟩

/-- Witness for C2 on the one-vote example state. -/
theorem cascade_delete_composition_witness :
    (deleteCompositionRoute exdb 1 1).2 = DeleteOutcome.ok ∧
    (deleteCompositionRoute exdb 1 1).1 =
      compositionFindByIdAndDelete (likeDislikeDeleteMany exdb 1) 1 ∧
    (∀ v ∈ (deleteCompositionRoute exdb 1 1).1.votes, v.composition ≠ 1) ∧
    findComposition (deleteCompositionRoute exdb 1 1).1 1 = none ∧
    (deleteCompositionRoute exdb 1 1).1.songs = exdb.songs ∧
    (deleteCompositionRoute exdb 1 1).1.users = exdb.users :=
  cascade_delete_composition exdb 1 1 ⟨1, 1, 1, 1, 0, 5⟩ rfl rfl

theorem deleteSongRoute_eq (db : DB) (uid sid : Nat) (s : Song)
    (hs : findSong db sid = some s) (hauth : s.addedBy = uid) :
    deleteSongRoute db uid sid =
      (songFindByIdAndDelete (compositionDeleteManyBySong db s.id) sid,
       DeleteOutcome.ok) := by
  unfold deleteSongRoute
  rw [hs]
  dsimp only
  rw [if_neg (fun hne => hne hauth)]

/-- C10: deleting a song removes the song and bulk-deletes every
composition referencing it, but never touches the LikeDislike
collection: the vote ledger is returned unchanged, so vote rows that
referenced the deleted compositions survive as orphans. -/
theorem song_delete_preserves_vote_ledger (db : DB) (uid sid : Nat) (s : Song)
    (hs : findSong db sid = some s) (hauth : s.addedBy = uid) :
    (deleteSongRoute db uid sid).2 = DeleteOutcome.ok ∧
    (deleteSongRoute db uid sid).1.votes = db.votes ∧
    (∀ c ∈ (deleteSongRoute db uid sid).1.compositions, c.song ≠ sid) ∧
    findSong (deleteSongRoute db uid sid).1 sid = none ∧
    (deleteSongRoute db uid sid).1.users = db.users := by
  have hsid := findSong_id db sid s hs
  rw [deleteSongRoute_eq db uid sid s hs hauth]
  refine ⟨rfl, rfl, ?_, ?_, rfl⟩
  · intro c hcmem
    have hkeep := List.of_mem_filter hcmem
    simp only [bne_iff_ne, ne_eq] at hkeep
    rw [← hsid]
    exact hkeep
  · unfold findSong songFindByIdAndDelete
    dsimp only
    rw [List.find?_filter, List.find?_eq_none]
    intro x hx
    simp

/-- Witness for C10: after deleting song 1 the ledger still holds the
vote row referencing the now-deleted composition 1. -/
theorem song_delete_preserves_vote_ledger_witness :
    (deleteSongRoute exdb 1 1).2 = DeleteOutcome.ok ∧
    (deleteSongRoute exdb 1 1).1.votes = exdb.votes ∧
    (∀ c ∈ (deleteSongRoute exdb 1 1).1.compositions, c.song ≠ 1) ∧
    findSong (deleteSongRoute exdb 1 1).1 1 = none ∧
    (deleteSongRoute exdb 1 1).1.users = exdb.users :=
  song_delete_preserves_vote_ledger exdb 1 1 ⟨1, 1, 1⟩ rfl rfl

/-- C1: evaluation of the code at the failing input. The example state
is fully consistent; retracting the single like deletes the ledger row
through findByIdAndDelete, which fires the findOneAndDelete middleware
channel on which no hook is registered, so the stored counters are
never recomputed: the composition keeps likes 1 and rating 5 while the
ledger now counts 0 likes, violating the invariant on the retraction
path. -/
theorem retraction_leaves_counters_stale :
    countersConsistent exdb ∧
    (voteRoute exdb 2 1 "like").2.2 =
      VoteOutcome.ok
        [("message", JsonVal.str "Vote removed"),
         ("action", JsonVal.str "removed")] ∧
    (voteRoute exdb 2 1 "like").1.votes = [] ∧
    (voteRoute exdb 2 1 "like").1.compositions = exdb.compositions ∧
    ¬ countersConsistent (voteRoute exdb 2 1 "like").1 := by
  refine ⟨?_, rfl, rfl, rfl, ?_⟩
  · intro c hcmem
    have hc : c = ⟨1, 1, 1, 1, 0, 5⟩ := by
      simpa [exdb] using hcmem
    subst hc
    refine ⟨rfl, rfl, ?_⟩
    show (5 : ℚ) = specRating 1 0
    norm_num [specRating, roundHalfUpTenth]
  · intro h
    have hm : (⟨1, 1, 1, 1, 0, 5⟩ : Composition)
        ∈ (voteRoute exdb 2 1 "like").1.compositions := by
      show (⟨1, 1, 1, 1, 0, 5⟩ : Composition)
          ∈ ([⟨1, 1, 1, 1, 0, 5⟩] : List Composition)
      exact List.mem_singleton.mpr rfl
    have hlikes := (h _ hm).1
    exact absurd hlikes (by decide)

end LyricsPlatform

